import Mathlib

/-!
Shallow embedding of `src/comfy2py.py` (a ComfyUI workflow CLI wrapper).

A workflow document is a JSON object mapping node ids (strings) to node
records; each record has an `inputs` mapping from field names to JSON
values, some of which are link pairs `[referenced_node_id, output_index]`.
Python dicts preserve insertion order and iterate in that order, so both
the document and each `inputs` mapping are modelled as association lists;
`lookup` finds the first binding and `setKey` mirrors Python dict
assignment (update in place when the key exists, append otherwise).
Exceptions are modelled with `Except PyError`; lines printed to stdout are
returned explicitly.
-/

namespace Comfy2Py

/-- JSON values as they occur inside a workflow node's `inputs` mapping:
strings, integers, arrays (link pairs are `jarr [jstr id, jint idx]`) and
nested objects. -/
inductive JVal where
  | jstr : String → JVal
  | jint : Int → JVal
  | jarr : List JVal → JVal
  | jobj : List (String × JVal) → JVal

/-- A node record of the API-format graph: its `inputs` dict plus the
remaining fields (`class_type`, …), which no operation of the program
reads or writes. -/
structure Node where
  inputs : List (String × JVal)
  rest : List (String × JVal)

/-- A workflow document: node id → node record, in insertion order. -/
abbrev Doc := List (String × Node)

/-- The Python exceptions the program can raise. -/
inductive PyError where
  | keyError
  | typeError
  | indexError
  | valueError
  | fileNotFoundError
deriving DecidableEq, Repr

/-- First binding of a key in an association list (Python dict lookup). -/
def lookup {α : Type} : List (String × α) → String → Option α
  | [], _ => none
  | (k', v) :: rest, k => if k' = k then some v else lookup rest k

/-- Python dict assignment `m[k] = v`: replace the first binding of `k`
in place, or append a new binding when the key is absent. -/
def setKey {α : Type} : List (String × α) → String → α → List (String × α)
  | [], k, v => [(k, v)]
  | (k', v') :: rest, k, v =>
      if k' = k then (k, v) :: rest else (k', v') :: setKey rest k v

/-- Python `k in m` for a dict. -/
def hasKey {α : Type} (m : List (String × α)) (k : String) : Bool :=
  (lookup m k).isSome

/-- `load_workflow`/`save_workflow` name normalisation (lines 51-52 and
181-182): append `.json` when the name does not already end in it. -/
def normalizeName (name : String) : String :=
  if name.endsWith ".json" then name else name ++ ".json"

/-- The fixed workflow directory, modelled as a store from file name to
the JSON document the file holds (`json.dump`/`json.load` round-trip a
JSON-representable document, so file contents are kept structured). -/
abbrev FS := List (String × Doc)

/-- `Workflow.load_workflow` (lines 43-57): normalise the name, then read
the file from the fixed directory; `FileNotFoundError` when absent. -/
def load_workflow (fs : FS) (name : String) : Except PyError Doc :=
  match lookup fs (normalizeName name) with
  | some d => Except.ok d
  | none => Except.error PyError.fileNotFoundError

/-- `Workflow.save_workflow` with an explicit name (lines 173-184):
normalise the name and write the current document there. -/
def save_workflow (fs : FS) (doc : Doc) (name : String) : FS :=
  setKey fs (normalizeName name) doc

/-- The `Workflow` object state after a successful `__init__`. -/
structure Workflow where
  workflow_name : String
  workflow_data : Doc

/-- `Workflow.__init__` (lines 21-32): load the named file (raising
`FileNotFoundError` when absent), then check `execution.validate_prompt`
— an external library call, passed in as the predicate `validate` — and
raise `ValueError` when it rejects the document. -/
def Workflow.init (fs : FS) (validate : Doc → Bool) (name : String) :
    Except PyError Workflow :=
  match load_workflow fs name with
  | Except.error e => Except.error e
  | Except.ok d =>
      if validate d then Except.ok ⟨normalizeName name, d⟩
      else Except.error PyError.valueError

/-- Python subscript `v[0]` on a JSON value: head of an array, first
character of a string, `IndexError` when empty, `TypeError` on-
non-subscriptable values. -/
def index0 : JVal → Except PyError JVal
  | JVal.jarr (v :: _) => Except.ok v
  | JVal.jarr [] => Except.error PyError.indexError
  | JVal.jstr s =>
      match s.data with
      | c :: _ => Except.ok (JVal.jstr (String.mk [c]))
      | [] => Except.error PyError.indexError
  | JVal.jint _ => Except.error PyError.typeError
  | JVal.jobj _ => Except.error PyError.typeError

/-- The scan shared by `get_prompt_node_id` (lines 71-75) and
`get_node_id` (lines 121-125): iterate nodes in mapping order; at the
first node whose `inputs` contains `key`, return
`workflow_data[node].inputs[key][0]`; `none` when no node matches. -/
def findRoleRef : Doc → String → Except PyError (Option JVal)
  | [], _ => Except.ok none
  | (_, node) :: restDoc, key =>
      match lookup node.inputs key with
      | some v => (index0 v).map some
      | none => findRoleRef restDoc key

/-- `Workflow.get_prompt_node_id` (lines 59-75): `ValueError` unless the
tone is `positive` or `negative`, otherwise the role scan. -/
def get_prompt_node_id (doc : Doc) (tone : String) :
    Except PyError (Option JVal) :=
  if tone = "positive" ∨ tone = "negative" then findRoleRef doc tone
  else Except.error PyError.valueError

/-- `Workflow.get_node_id` (lines 110-125): the same scan, but raising
`ValueError` when no node matches. -/
def get_node_id (doc : Doc) (node_type : String) : Except PyError JVal :=
  match findRoleRef doc node_type with
  | Except.ok (some v) => Except.ok v
  | Except.ok none => Except.error PyError.valueError
  | Except.error e => Except.error e

/-- Python `self.workflow_data[nid]` where `nid` is a value found by the
role scan: dict lookup succeeds only on a string key bound in the
document (`KeyError` otherwise; lists and dicts are unhashable:
`TypeError`). -/
def docIndex (doc : Doc) (nid : JVal) : Except PyError Node :=
  match nid with
  | JVal.jstr s =>
      match lookup doc s with
      | some n => Except.ok n
      | none => Except.error PyError.keyError
  | JVal.jint _ => Except.error PyError.keyError
  | JVal.jarr _ => Except.error PyError.typeError
  | JVal.jobj _ => Except.error PyError.typeError

/-- `self.workflow_data[nid].inputs.text` as read by `show_prompts`
(lines 106 and 108). -/
def nodeText (doc : Doc) (nid : JVal) : Except PyError JVal :=
  match docIndex doc nid with
  | Except.error e => Except.error e
  | Except.ok node =>
      match lookup node.inputs "text" with
      | some v => Except.ok v
      | none => Except.error PyError.keyError

/-- `self.workflow_data[nid].inputs.text = prompt` as executed by the
prompt updates (lines 85 and 97). -/
def setNodeText (doc : Doc) (nid : JVal) (prompt : String) :
    Except PyError Doc :=
  match nid with
  | JVal.jstr s =>
      match lookup doc s with
      | some node =>
          Except.ok (setKey doc s
            { node with inputs := setKey node.inputs "text" (JVal.jstr prompt) })
      | none => Except.error PyError.keyError
  | JVal.jint _ => Except.error PyError.keyError
  | JVal.jarr _ => Except.error PyError.typeError
  | JVal.jobj _ => Except.error PyError.typeError

/-- `Workflow.update_positive_prompt` (lines 77-87): locate the
positive-tagged reference; set its `text` field when found, else print
a warning and continue. Returns the new document and the printed lines. -/
def update_positive_prompt (doc : Doc) (prompt : String) :
    Except PyError (Doc × List String) :=
  match get_prompt_node_id doc "positive" with
  | Except.error e => Except.error e
  | Except.ok none => Except.ok (doc, ["No positive node found"])
  | Except.ok (some nid) =>
      (setNodeText doc nid prompt).map (fun d => (d, []))

/-- `Workflow.update_negative_prompt` (lines 89-99). -/
def update_negative_prompt (doc : Doc) (prompt : String) :
    Except PyError (Doc × List String) :=
  match get_prompt_node_id doc "negative" with
  | Except.error e => Except.error e
  | Except.ok none => Except.ok (doc, ["No negative node found"])
  | Except.ok (some nid) =>
      (setNodeText doc nid prompt).map (fun d => (d, []))

/-- `Workflow.show_prompts` (lines 101-108): both role lookups run first
(lines 103-104); the positive line prints before the negative text is
read, so a failure there still leaves the positive line shown. Result:
the `(tone, text)` pairs printed, and the exception if one was raised. -/
def show_prompts (doc : Doc) : List (String × JVal) × Option PyError :=
  match get_prompt_node_id doc "positive" with
  | Except.error e => ([], some e)
  | Except.ok posId =>
  match get_prompt_node_id doc "negative" with
  | Except.error e => ([], some e)
  | Except.ok negId =>
  match posId with
  | some nid =>
      match nodeText doc nid with
      | Except.error e => ([], some e)
      | Except.ok t =>
          match negId with
          | none => ([("positive", t)], none)
          | some nid2 =>
              match nodeText doc nid2 with
              | Except.error e => ([("positive", t)], some e)
              | Except.ok t2 => ([("positive", t), ("negative", t2)], none)
  | none =>
      match negId with
      | none => ([], none)
      | some nid2 =>
          match nodeText doc nid2 with
          | Except.error e => ([], some e)
          | Except.ok t2 => ([("negative", t2)], none)

/-- The document serialised back to a JSON value, as `json.dumps` sees it
in `queue_prompt`. -/
def docToJVal (doc : Doc) : JVal :=
  JVal.jobj (doc.map (fun p =>
    (p.1, JVal.jobj (("inputs", JVal.jobj p.2.inputs) :: p.2.rest))))

/-- A `urllib.request.Request`: target URL and JSON body. -/
structure HttpRequest where
  url : String
  body : JVal

/-- `Workflow.queue_prompt` (lines 133-142): wraps the document as
`{"prompt": document}`, builds the `Request` for
`http://{server_adress}/prompt` — and stops there: the `urlopen` call on
line 142 is commented out. First component: the request constructed;
second: the list of HTTP calls actually performed, which is empty. -/
def queue_prompt (doc : Doc) (server_adress : String) :
    HttpRequest × List HttpRequest :=
  let wrapped := JVal.jobj [("prompt", docToJVal doc)]
  let req : HttpRequest :=
    { url := "http://" ++ server_adress ++ "/prompt", body := wrapped }
  (req, [])

/-- `Workflow.update_steps` (lines 149-157): set `inputs.steps` on every
node whose `inputs` has the key. -/
def update_steps (doc : Doc) (steps : Int) : Doc :=
  doc.map (fun p =>
    if hasKey p.2.inputs "steps" then
      (p.1, { p.2 with inputs := setKey p.2.inputs "steps" (JVal.jint steps) })
    else p)

/-- Body of `Workflow.update_seed` (lines 166-171): on each node with a
`seed` input, store the literal seed, or — when the seed is the sentinel
`-1` — the next draw of `random.randint(0, 1000000)`, modelled by the
oracle `rng` consumed one index per call. -/
def update_seed_aux (rng : Nat → Int) (seed : Int) :
    Doc → Nat → Doc
  | [], _ => []
  | (nid, node) :: restDoc, k =>
      if hasKey node.inputs "seed" then
        if seed = -1 then
          (nid, { node with inputs := setKey node.inputs "seed" (JVal.jint (rng k)) })
            :: update_seed_aux rng seed restDoc (k + 1)
        else
          (nid, { node with inputs := setKey node.inputs "seed" (JVal.jint seed) })
            :: update_seed_aux rng seed restDoc k
      else (nid, node) :: update_seed_aux rng seed restDoc k

/-- `Workflow.update_seed` (lines 160-171). -/
def update_seed (doc : Doc) (seed : Int) (rng : Nat → Int) : Doc :=
  update_seed_aux rng seed doc 0

/-- The range claim exactly as stated: under the contract of
`random.randint(0, 1000000)` (every draw lies in the closed interval
`[0, 1000000]`), every seed present after `update_seed(-1)` lies in the
half-open interval `[0, 1000000)`. -/
def seedClaimHalfOpen : Prop :=
  ∀ (doc : Doc) (rng : Nat → Int),
    (∀ i, 0 ≤ rng i ∧ rng i ≤ 1000000) →
    ∀ nid node, (nid, node) ∈ update_seed doc (-1) rng →
    ∀ v, lookup node.inputs "seed" = some (JVal.jint v) →
    0 ≤ v ∧ v < 1000000

/-! ## Helper lemmas on the dict model -/

theorem lookup_setKey_self {α : Type} (m : List (String × α)) (k : String) (v : α) :
    lookup (setKey m k v) k = some v := by
  induction m with
  | nil => simp [setKey, lookup]
  | cons p rest ih =>
      by_cases h : p.1 = k
      · simp [setKey, h, lookup]
      · simp [setKey, h, lookup, ih]

theorem lookup_setKey_ne {α : Type} (m : List (String × α)) (k k' : String) (v : α)
    (h : k' ≠ k) : lookup (setKey m k v) k' = lookup m k' := by
  have hk : k ≠ k' := Ne.symm h
  induction m with
  | nil => simp [setKey, lookup, hk]
  | cons p rest ih =>
      simp only [setKey]
      by_cases hp : p.1 = k
      · rw [if_pos hp]
        simp only [lookup]
        rw [if_neg hk, if_neg (fun hh => hk (hp.symm.trans hh))]
      · rw [if_neg hp]
        simp only [lookup]
        by_cases hq : p.1 = k'
        · rw [if_pos hq, if_pos hq]
        · rw [if_neg hq, if_neg hq]
          exact ih

theorem findRoleRef_of_all_none (doc : Doc) (key : String)
    (h : ∀ x ∈ doc, lookup x.2.inputs key = none) :
    findRoleRef doc key = Except.ok none := by
  induction doc with
  | nil => rfl
  | cons p rest ih =>
      have hp := h p (List.mem_cons_self p rest)
      simp only [findRoleRef]
      rw [hp]
      exact ih (fun x hx => h x (List.mem_cons_of_mem p hx))

theorem findRoleRef_first (pre post : Doc) (mid : String) (mnode : Node)
    (key : String) (v : JVal)
    (hpre : ∀ x ∈ pre, lookup x.2.inputs key = none)
    (hm : lookup mnode.inputs key = some v) :
    findRoleRef (pre ++ (mid, mnode) :: post) key = (index0 v).map some := by
  induction pre with
  | nil =>
      simp only [List.nil_append, findRoleRef]
      rw [hm]
  | cons p rest ih =>
      have hp := hpre p (List.mem_cons_self p rest)
      simp only [List.cons_append, findRoleRef]
      rw [hp]
      exact ih (fun x hx => hpre x (List.mem_cons_of_mem p hx))

theorem findRoleRef_setKey (doc : Doc) (s : String) (node n' : Node) (key : String)
    (hs : lookup doc s = some node)
    (hin : ∀ k, k ≠ "text" → lookup n'.inputs k = lookup node.inputs k)
    (hkey : key ≠ "text") :
    findRoleRef (setKey doc s n') key = findRoleRef doc key := by
  induction doc with
  | nil => simp [lookup] at hs
  | cons p rest ih =>
      by_cases hp : p.1 = s
      · have hnd : p.2 = node := by
          simp only [lookup] at hs
          rw [if_pos hp] at hs
          exact Option.some.inj hs
        have : setKey (p :: rest) s n' = (s, n') :: rest := by
          cases p; simp_all [setKey]
        rw [this]
        simp only [findRoleRef]
        rw [hin key hkey, ← hnd]
      · have : setKey (p :: rest) s n' = p :: setKey rest s n' := by
          cases p; simp_all [setKey]
        rw [this]
        simp only [findRoleRef]
        have hs' : lookup rest s = some node := by
          simp only [lookup] at hs
          rw [if_neg hp] at hs
          exact hs
        cases lookup p.2.inputs key <;> simp [ih hs']

theorem lookup_eq_none_of_hasKey_false {α : Type} (m : List (String × α)) (k : String)
    (h : hasKey m k = false) : lookup m k = none := by
  unfold hasKey at h
  cases hl : lookup m k with
  | none => rfl
  | some v => rw [hl] at h; simp at h

theorem update_seed_aux_range (rng : Nat → Int)
    (hrng : ∀ i, 0 ≤ rng i ∧ rng i ≤ 1000000) :
    ∀ (doc : Doc) (k : Nat) (nid : String) (node : Node),
      (nid, node) ∈ update_seed_aux rng (-1) doc k →
      ∀ v, lookup node.inputs "seed" = some (JVal.jint v) →
      0 ≤ v ∧ v ≤ 1000000 := by
  intro doc
  induction doc with
  | nil => intro k nid node hmem; simp [update_seed_aux] at hmem
  | cons p rest ih =>
      intro k nid node hmem v hv
      obtain ⟨a, nd⟩ := p
      by_cases hk : hasKey nd.inputs "seed"
      · rw [update_seed_aux, if_pos hk, if_pos rfl] at hmem
        rcases List.mem_cons.mp hmem with hhead | htail
        · have hnode : node =
              { nd with inputs := setKey nd.inputs "seed" (JVal.jint (rng k)) } :=
            congrArg Prod.snd hhead
          rw [hnode] at hv
          have : lookup (setKey nd.inputs "seed" (JVal.jint (rng k))) "seed"
              = some (JVal.jint (rng k)) := lookup_setKey_self _ _ _
          rw [this] at hv
          have hvv : rng k = v := by
            injection Option.some.inj hv
          exact hvv ▸ hrng k
        · exact ih (k + 1) nid node htail v hv
      · rw [update_seed_aux, if_neg hk] at hmem
        rcases List.mem_cons.mp hmem with hhead | htail
        · have hnode : node = nd := congrArg Prod.snd hhead
          rw [hnode, lookup_eq_none_of_hasKey_false nd.inputs "seed"
            (Bool.not_eq_true _ ▸ (by simpa using hk))] at hv
          exact absurd hv (by simp)
        · exact ih k nid node htail v hv

/-! ## Concrete documents used by witnesses and counterexamples -/

/-- A one-node document whose node has a `seed` input. -/
def seedDoc : Doc := [("3", ⟨[("seed", JVal.jint 7)], []⟩)]

/-- A `randint(0, 1000000)` oracle that always returns the upper bound,
a value the Python contract of `random.randint` allows. -/
def rngTop : Nat → Int := fun _ => 1000000

/-! ## Claim theorems -/

/-- C1: `queue_prompt` wraps the document as `{"prompt": document}` and
builds the request for `http://<server_adress>/prompt` — but the list of
HTTP calls it performs is empty: the `urlopen` on line 142 is commented
out, contradicting the docstring "Queue the workflow for execution on
ComfyUI server". The single-POST behaviour the spec describes does not
happen. -/
theorem queue_prompt_builds_but_never_sends (doc : Doc) (addr : String) :
    (queue_prompt doc addr).1.url = "http://" ++ addr ++ "/prompt" ∧
    (queue_prompt doc addr).1.body = JVal.jobj [("prompt", docToJVal doc)] ∧
    (queue_prompt doc addr).2 = [] := by
  exact ⟨rfl, rfl, rfl⟩

/-- C2 counterexample: the claimed half-open range `[0, 1000000)` fails.
`random.randint(0, 1000000)` may return `1000000` (the Python bound is
inclusive); when the draw is `1000000`, the seed stored by
`update_seed(-1)` is `1000000`, which is not `< 1000000`. -/
theorem seed_halfopen_range_fails : ¬ seedClaimHalfOpen := by
  intro h
  have hres : update_seed seedDoc (-1) rngTop
      = [("3", ⟨[("seed", JVal.jint 1000000)], []⟩)] := rfl
  have hmem : ("3", (⟨[("seed", JVal.jint 1000000)], []⟩ : Node))
      ∈ update_seed seedDoc (-1) rngTop := by
    rw [hres]; exact List.mem_singleton.mpr rfl
  have hb := h seedDoc rngTop (fun i => by constructor <;> norm_num [rngTop])
    "3" ⟨[("seed", JVal.jint 1000000)], []⟩ hmem 1000000 rfl
  exact absurd hb.2 (by norm_num)

/-- C2 amended: under the actual contract of `random.randint(0, 1000000)`
(draws in the closed interval `[0, 1000000]`), `update_seed(-1)` leaves
every node's `seed` input an integer in the closed interval
`[0, 1000000]` — at least 0 and at most 1,000,000, the upper bound
included. -/
theorem update_seed_closed_range (doc : Doc) (rng : Nat → Int)
    (hrng : ∀ i, 0 ≤ rng i ∧ rng i ≤ 1000000)
    (nid : String) (node : Node)
    (hmem : (nid, node) ∈ update_seed doc (-1) rng)
    (v : Int) (hv : lookup node.inputs "seed" = some (JVal.jint v)) :
    0 ≤ v ∧ v ≤ 1000000 :=
  update_seed_aux_range rng hrng doc 0 nid node hmem v hv

/-- C2 witness: the amended bound at the concrete boundary document. -/
theorem update_seed_closed_range_witness :
    (0 : Int) ≤ 1000000 ∧ (1000000 : Int) ≤ 1000000 :=
  update_seed_closed_range seedDoc rngTop
    (fun i => by constructor <;> norm_num [rngTop])
    "3" ⟨[("seed", JVal.jint 1000000)], []⟩
    (by rw [(rfl : update_seed seedDoc (-1) rngTop
        = [("3", ⟨[("seed", JVal.jint 1000000)], []⟩)])]
        exact List.mem_singleton.mpr rfl)
    1000000 rfl

/-- C3: `update_steps n` keeps every node id in place; a node that had a
`steps` input now has it equal to `n`, with its other inputs and its
non-`inputs` fields untouched; a node without a `steps` input is returned
unchanged; and the document keeps its length. -/
theorem update_steps_frame (doc : Doc) (n : Int) (i : Nat) (nid : String)
    (node : Node) (h : doc.get? i = some (nid, node)) :
    (update_steps doc n).length = doc.length ∧
    ∃ node', (update_steps doc n).get? i = some (nid, node') ∧
      (hasKey node.inputs "steps" = true →
        lookup node'.inputs "steps" = some (JVal.jint n) ∧
        node'.rest = node.rest ∧
        ∀ k, k ≠ "steps" → lookup node'.inputs k = lookup node.inputs k) ∧
      (hasKey node.inputs "steps" = false → node' = node) := by
  refine ⟨by simp [update_steps], ?_⟩
  have hmap : (update_steps doc n).get? i
      = (doc.get? i).map (fun p =>
          if hasKey p.2.inputs "steps" then
            (p.1, { p.2 with inputs := setKey p.2.inputs "steps" (JVal.jint n) })
          else p) := by
    simp [update_steps, List.get?_eq_getElem?, List.getElem?_map]
  rw [h] at hmap
  by_cases hk : hasKey node.inputs "steps"
  · refine ⟨{ node with inputs := setKey node.inputs "steps" (JVal.jint n) }, ?_, ?_, ?_⟩
    · rw [hmap]; simp [hk]
    · intro _
      refine ⟨lookup_setKey_self _ _ _, rfl, ?_⟩
      intro k hkk
      exact lookup_setKey_ne node.inputs "steps" k (JVal.jint n) hkk
    · intro hfalse; rw [hk] at hfalse; cases hfalse
  · refine ⟨node, ?_, ?_, fun _ => rfl⟩
    · rw [hmap]; simp [hk]
    · intro htrue
      rw [htrue] at hk
      exact absurd rfl hk

/-- C3 witness: a two-node document, one node with a `steps` input and
one without. -/
theorem update_steps_frame_witness :
    (update_steps [("1", ⟨[("steps", JVal.jint 20), ("cfg", JVal.jint 8)], []⟩),
                   ("2", ⟨[("text", JVal.jstr "hi")], []⟩)] 30).length = 2 ∧
    ∃ node', (update_steps [("1", ⟨[("steps", JVal.jint 20), ("cfg", JVal.jint 8)], []⟩),
                   ("2", ⟨[("text", JVal.jstr "hi")], []⟩)] 30).get? 0
        = some ("1", node') ∧
      (hasKey ([("steps", JVal.jint 20), ("cfg", JVal.jint 8)] :
          List (String × JVal)) "steps" = true →
        lookup node'.inputs "steps" = some (JVal.jint 30) ∧
        node'.rest = [] ∧
        ∀ k, k ≠ "steps" → lookup node'.inputs k
          = lookup [("steps", JVal.jint 20), ("cfg", JVal.jint 8)] k) ∧
      (hasKey ([("steps", JVal.jint 20), ("cfg", JVal.jint 8)] :
          List (String × JVal)) "steps" = false →
        node' = ⟨[("steps", JVal.jint 20), ("cfg", JVal.jint 8)], []⟩) :=
  update_steps_frame _ 30 0 "1" ⟨[("steps", JVal.jint 20), ("cfg", JVal.jint 8)], []⟩ rfl

/-- C4: saving the in-memory document under a name and loading that same
name yields the saved document; both operations append `.json` to the
name when it is missing, so a name without the extension is stored at
`name ++ ".json"`. -/
theorem save_load_roundtrip (fs : FS) (doc : Doc) (name : String) :
    load_workflow (save_workflow fs doc name) name = Except.ok doc ∧
    (name.endsWith ".json" = false →
      lookup (save_workflow fs doc name) (name ++ ".json") = some doc) := by
  constructor
  · simp [load_workflow, save_workflow, lookup_setKey_self]
  · intro h
    simp [save_workflow, normalizeName, h, lookup_setKey_self]

/-- C4 witness: a concrete round-trip through a name lacking `.json`. -/
theorem save_load_roundtrip_witness :
    load_workflow (save_workflow [] [] "wf") "wf" = Except.ok [] ∧
    lookup (save_workflow [] ([] : Doc) "wf") "wf.json" = some [] := by
  refine ⟨(save_load_roundtrip [] [] "wf").1, ?_⟩
  exact (save_load_roundtrip [] [] "wf").2 (by decide)

/-- C5: constructing a `Workflow` fails with `FileNotFoundError` when the
named file is absent from the directory, and with `ValueError` when the
external validation rejects the loaded document; in each case `init`
returns an error and no `Workflow` object, so no mutation operation is
reachable. -/
theorem init_error_modes (fs : FS) (validate : Doc → Bool) (name : String) :
    (lookup fs (normalizeName name) = none →
      Workflow.init fs validate name = Except.error PyError.fileNotFoundError) ∧
    (∀ d, lookup fs (normalizeName name) = some d → validate d = false →
      Workflow.init fs validate name = Except.error PyError.valueError) := by
  constructor
  · intro h
    simp [Workflow.init, load_workflow, h]
  · intro d hd hv
    simp [Workflow.init, load_workflow, hd, hv]

/-- C5 witness: a missing file and a rejected document, concretely. -/
theorem init_error_modes_witness :
    Workflow.init [] (fun _ => true) "wf" = Except.error PyError.fileNotFoundError ∧
    Workflow.init [("wf.json", [])] (fun _ => false) "wf"
      = Except.error PyError.valueError := by
  constructor
  · exact (init_error_modes [] (fun _ => true) "wf").1 rfl
  · exact (init_error_modes [("wf.json", [])] (fun _ => false) "wf").2 [] rfl rfl

/-- C7: for any tone other than `positive` and `negative`,
`get_prompt_node_id` raises `ValueError`, and its result does not depend
on the workflow document at all (the check precedes the scan); being a
read-only operation it returns no modified document. -/
theorem get_prompt_node_id_bad_tone (doc : Doc) (tone : String)
    (h1 : tone ≠ "positive") (h2 : tone ≠ "negative") :
    get_prompt_node_id doc tone = Except.error PyError.valueError ∧
    (∀ doc' : Doc, get_prompt_node_id doc' tone = get_prompt_node_id doc tone) := by
  have hcond : ¬(tone = "positive" ∨ tone = "negative") := by
    intro hc
    cases hc with
    | inl h => exact h1 h
    | inr h => exact h2 h
  constructor
  · simp [get_prompt_node_id, hcond]
  · intro doc'
    simp [get_prompt_node_id, hcond]

/-- C7 witness: the tone `model` is rejected on a concrete document. -/
theorem get_prompt_node_id_bad_tone_witness :
    get_prompt_node_id [] "model" = Except.error PyError.valueError ∧
    (∀ doc' : Doc, get_prompt_node_id doc' "model" = get_prompt_node_id [] "model") :=
  get_prompt_node_id_bad_tone [] "model" (by decide) (by decide)

/-- C6: the find-node-by-role scan walks the document in mapping
iteration order; at the first node whose `inputs` contains the key it
returns the first element of that input's link pair — the referenced
node id, not the id of the node holding the key; when no node matches,
`findRoleRef` (hence `get_prompt_node_id` on a valid tone) signals
`none` and `get_node_id` raises `ValueError`. `get_prompt_node_id` on
`positive`/`negative` is exactly this scan. -/
theorem find_role_scan_spec :
    (∀ (pre post : Doc) (mid : String) (mnode : Node) (key : String)
       (ref : JVal) (tl : List JVal),
       (∀ x ∈ pre, lookup x.2.inputs key = none) →
       lookup mnode.inputs key = some (JVal.jarr (ref :: tl)) →
       findRoleRef (pre ++ (mid, mnode) :: post) key = Except.ok (some ref) ∧
       get_node_id (pre ++ (mid, mnode) :: post) key = Except.ok ref) ∧
    (∀ (doc : Doc) (key : String),
       (∀ x ∈ doc, lookup x.2.inputs key = none) →
       findRoleRef doc key = Except.ok none ∧
       get_node_id doc key = Except.error PyError.valueError) ∧
    (∀ (doc : Doc) (tone : String), tone = "positive" ∨ tone = "negative" →
       get_prompt_node_id doc tone = findRoleRef doc tone) := by
  refine ⟨?_, ?_, ?_⟩
  · intro pre post mid mnode key ref tl hpre hm
    have hf : findRoleRef (pre ++ (mid, mnode) :: post) key
        = Except.ok (some ref) := by
      rw [findRoleRef_first pre post mid mnode key (JVal.jarr (ref :: tl)) hpre hm]
      rfl
    exact ⟨hf, by simp [get_node_id, hf]⟩
  · intro doc key hnone
    have hf := findRoleRef_of_all_none doc key hnone
    exact ⟨hf, by simp [get_node_id, hf]⟩
  · intro doc tone htone
    simp [get_prompt_node_id, htone]

/-- C6 witness: a document whose second node references node `7` through
its `positive` input; and the empty document, where the scan finds
nothing. -/
theorem find_role_scan_spec_witness :
    findRoleRef [("1", ⟨[("text", JVal.jstr "x")], []⟩),
                 ("2", ⟨[("positive", JVal.jarr [JVal.jstr "7", JVal.jint 0])], []⟩)]
        "positive" = Except.ok (some (JVal.jstr "7")) ∧
    get_node_id ([] : Doc) "model" = Except.error PyError.valueError ∧
    get_prompt_node_id [("1", ⟨[("text", JVal.jstr "x")], []⟩)] "negative"
      = findRoleRef [("1", ⟨[("text", JVal.jstr "x")], []⟩)] "negative" := by
  refine ⟨?_, ?_, ?_⟩
  · have := (find_role_scan_spec.1 [("1", ⟨[("text", JVal.jstr "x")], []⟩)] []
      "2" ⟨[("positive", JVal.jarr [JVal.jstr "7", JVal.jint 0])], []⟩
      "positive" (JVal.jstr "7") [JVal.jint 0]
      (by intro x hx
          have hx' := List.mem_singleton.mp hx
          rw [hx']
          rfl)
      rfl).1
    exact this
  · exact (find_role_scan_spec.2.1 [] "model" (by intro x hx; cases hx)).2
  · exact find_role_scan_spec.2.2 [("1", ⟨[("text", JVal.jstr "x")], []⟩)]
      "negative" (Or.inr rfl)

/-- C9: when no node's `inputs` contains the targeted tone key, the
prompt update raises nothing, returns the document unchanged, and prints
the warning line. -/
theorem update_prompt_no_target (doc : Doc) (p : String) :
    ((∀ x ∈ doc, lookup x.2.inputs "positive" = none) →
      update_positive_prompt doc p = Except.ok (doc, ["No positive node found"])) ∧
    ((∀ x ∈ doc, lookup x.2.inputs "negative" = none) →
      update_negative_prompt doc p = Except.ok (doc, ["No negative node found"])) := by
  constructor
  · intro h
    have hf := findRoleRef_of_all_none doc "positive" h
    simp [update_positive_prompt, get_prompt_node_id, hf]
  · intro h
    have hf := findRoleRef_of_all_none doc "negative" h
    simp [update_negative_prompt, get_prompt_node_id, hf]

/-- C9 witness: a document whose only node carries neither tone key. -/
theorem update_prompt_no_target_witness :
    update_positive_prompt [("1", ⟨[("text", JVal.jstr "x")], []⟩)] "p"
      = Except.ok ([("1", ⟨[("text", JVal.jstr "x")], []⟩)],
          ["No positive node found"]) ∧
    update_negative_prompt [("1", ⟨[("text", JVal.jstr "x")], []⟩)] "p"
      = Except.ok ([("1", ⟨[("text", JVal.jstr "x")], []⟩)],
          ["No negative node found"]) := by
  constructor
  · exact (update_prompt_no_target [("1", ⟨[("text", JVal.jstr "x")], []⟩)] "p").1
      (by intro x hx
          have hx' := List.mem_singleton.mp hx
          rw [hx']
          rfl)
  · exact (update_prompt_no_target [("1", ⟨[("text", JVal.jstr "x")], []⟩)] "p").2
      (by intro x hx
          have hx' := List.mem_singleton.mp hx
          rw [hx']
          rfl)

/-- C10: when the role scan returns an id that is not a key of the
document (a dangling `positive` link), `update_positive_prompt` does not
warn and skip: the unguarded `self.workflow_data[positive_node_id]`
raises `KeyError`. -/
theorem update_positive_prompt_dangling (doc : Doc) (p nid : String)
    (hfind : get_prompt_node_id doc "positive" = Except.ok (some (JVal.jstr nid)))
    (hmiss : lookup doc nid = none) :
    update_positive_prompt doc p = Except.error PyError.keyError := by
  simp [update_positive_prompt, hfind, setNodeText, hmiss, Except.map]

/-- C10 witness: a one-node document whose `positive` input references
the absent node `99`. -/
theorem update_positive_prompt_dangling_witness :
    update_positive_prompt
      [("5", ⟨[("positive", JVal.jarr [JVal.jstr "99", JVal.jint 0])], []⟩)] "hi"
      = Except.error PyError.keyError :=
  update_positive_prompt_dangling
    [("5", ⟨[("positive", JVal.jarr [JVal.jstr "99", JVal.jint 0])], []⟩)]
    "hi" "99" rfl rfl

/-- C8: on a well-formed document — the `positive` scan resolves to a
node id that is present, and the `negative` scan raises no exception —
`update_positive_prompt p` succeeds with no warning, and `show_prompts`
on the updated document shows `p` as the positive prompt. -/
theorem update_then_show_positive (doc : Doc) (p nid : String)
    (hfind : get_prompt_node_id doc "positive" = Except.ok (some (JVal.jstr nid)))
    (hnid : ∃ nd, lookup doc nid = some nd)
    (hneg : ∃ r, get_prompt_node_id doc "negative" = Except.ok r) :
    ∃ doc', update_positive_prompt doc p = Except.ok (doc', []) ∧
      lookup (show_prompts doc').1 "positive" = some (JVal.jstr p) := by
  obtain ⟨nd, hnd⟩ := hnid
  obtain ⟨r, hr⟩ := hneg
  have hfr : findRoleRef doc "positive" = Except.ok (some (JVal.jstr nid)) := by
    simpa [get_prompt_node_id] using hfind
  have hfrn : findRoleRef doc "negative" = Except.ok r := by
    simpa [get_prompt_node_id] using hr
  refine ⟨setKey doc nid
    { nd with inputs := setKey nd.inputs "text" (JVal.jstr p) }, ?_, ?_⟩
  · simp [update_positive_prompt, hfind, setNodeText, hnd, Except.map]
  · have hin : ∀ k, k ≠ "text" →
        lookup (setKey nd.inputs "text" (JVal.jstr p)) k = lookup nd.inputs k :=
      fun k hk => lookup_setKey_ne nd.inputs "text" k (JVal.jstr p) hk
    have hpos' : get_prompt_node_id
        (setKey doc nid { nd with inputs := setKey nd.inputs "text" (JVal.jstr p) })
        "positive" = Except.ok (some (JVal.jstr nid)) := by
      simp only [get_prompt_node_id, if_pos (Or.inl rfl)]
      rw [findRoleRef_setKey doc nid nd _ "positive" hnd hin (by decide)]
      exact hfr
    have hneg' : get_prompt_node_id
        (setKey doc nid { nd with inputs := setKey nd.inputs "text" (JVal.jstr p) })
        "negative" = Except.ok r := by
      simp only [get_prompt_node_id, if_pos (Or.inr rfl)]
      rw [findRoleRef_setKey doc nid nd _ "negative" hnd hin (by decide)]
      exact hfrn
    have htext : nodeText
        (setKey doc nid { nd with inputs := setKey nd.inputs "text" (JVal.jstr p) })
        (JVal.jstr nid) = Except.ok (JVal.jstr p) := by
      simp [nodeText, docIndex, lookup_setKey_self]
    simp only [show_prompts, hpos', hneg', htext]
    cases r with
    | none => simp [lookup]
    | some nid2 =>
        cases hnt : nodeText
            (setKey doc nid { nd with inputs := setKey nd.inputs "text" (JVal.jstr p) })
            nid2 with
        | error e => simp [hnt, lookup]
        | ok t2 => simp [hnt, lookup]

/-- C8 witness: node `5` tags node `7` as the positive prompt node;
after the update, `show_prompts` shows the new text. -/
theorem update_then_show_positive_witness :
    ∃ doc', update_positive_prompt
        [("5", ⟨[("positive", JVal.jarr [JVal.jstr "7", JVal.jint 0])], []⟩),
         ("7", ⟨[("text", JVal.jstr "old")], []⟩)] "new"
        = Except.ok (doc', []) ∧
      lookup (show_prompts doc').1 "positive" = some (JVal.jstr "new") :=
  update_then_show_positive
    [("5", ⟨[("positive", JVal.jarr [JVal.jstr "7", JVal.jint 0])], []⟩),
     ("7", ⟨[("text", JVal.jstr "old")], []⟩)] "new" "7"
    rfl ⟨⟨[("text", JVal.jstr "old")], []⟩, rfl⟩ ⟨none, rfl⟩

end Comfy2Py
